import Mathlib

/-!
Shallow embedding of the `MDPCellularSimulation` class of `src/main.py`
(repository `yushshresthax/simulation-game`), together with proofs about it.

Modelling conventions:
* Python dicts are insertion-ordered association lists (`alookup` / `aset`);
  setting an existing key updates the entry in place, a new key is appended,
  exactly as CPython dicts behave.
* Python sets of grid positions are `Finset Pos`.
* Python `float` arithmetic is modelled by exact rational arithmetic (`ℚ`);
  every reward expression in the source is a short sum of the constants
  `-0.2`, `health / 10`, `10`, `5`, so the term structure is preserved.
* Python exceptions (`KeyError`) are modelled by `Except`/`Option`; the
  constructor of `Err` records which line of `step` raised.
* `random` is modelled by an explicit stream of positions consumed in call
  order, and the learnt policy of `choose_action` by a function `Pos → Act`
  supplied by the caller (its lazy Q-row initialisation side effect is kept).
-/

namespace MDPSim

/-- Grid position `(x, y)`; Python ints, so `Int × Int`. -/
abbrev Pos := Int × Int

/-- An action is a grid delta `(dx, dy)`. -/
abbrev Act := Int × Int

/-- Per-cell record stored in `self.states`: `{'health': …, 'money': …}`. -/
structure Agent where
  health : Int
  money : Int
deriving DecidableEq

/-- Hashable state key `(x, y, health, money)` built by `get_state_key`. -/
abbrev StateKey := Int × Int × Int × Int

/-- One row of the Q-table: the dict `{action: q_value}`. -/
abbrev Row := List (Act × ℚ)

/-- The Q-table `self.q_table : {state_key: {action: q_value}}`. -/
abbrev QTable := List (StateKey × Row)

/-- The whole simulation object (the mutable attributes of the class). -/
structure Sim where
  width : Nat
  height : Nat
  states : List (Pos × Agent)
  foods : Finset Pos
  moneyTiles : Finset Pos
  qTable : QTable
deriving DecidableEq

/-- Dict lookup: first binding of the key, `none` when absent. -/
def alookup {α β : Type} [DecidableEq α] : List (α × β) → α → Option β
  | [], _ => none
  | (k, v) :: l, a => if a = k then some v else alookup l a

/-- Dict assignment `d[a] = b`: update in place if present, else append. -/
def aset {α β : Type} [DecidableEq α] : List (α × β) → α → β → List (α × β)
  | [], a, b => [(a, b)]
  | (k, v) :: l, a, b => if a = k then (a, b) :: l else (k, v) :: aset l a b

/-- Discount factor `self.GAMMA = 0.9`. -/
def GAMMA : ℚ := 9 / 10

/-- Learning rate `self.LEARNING_RATE = 0.1`. -/
def LEARNING_RATE : ℚ := 1 / 10

/-- Action list `self.actions`, in source order: down, up, right, left, stay. -/
def actions : List Act := [(0, 1), (0, -1), (1, 0), (-1, 0), (0, 0)]

/-- Loop body of `generate_resources`: keep drawing positions from the
random stream until the set has `count` elements; `none` models running
out of modelled randomness (the real loop would keep drawing). -/
def genResAux (count : Nat) : List Pos → Finset Pos → Option (Finset Pos × List Pos)
  | [], acc => if count ≤ acc.card then some (acc, []) else none
  | p :: rest, acc =>
    if count ≤ acc.card then some (acc, p :: rest)
    else genResAux count rest (insert p acc)

/-- Function `generate_resources(count)`: random unique positions, consuming the
explicit random stream; returns the set and the unused remainder. -/
def generate_resources (count : Nat) (stream : List Pos) : Option (Finset Pos × List Pos) :=
  genResAux count stream ∅

/-- Function `get_state_key(position)`: `(x, y, health, money)` with the
`{'health': 0, 'money': 0}` default for unoccupied positions. -/
def get_state_key (sim : Sim) (p : Pos) : StateKey :=
  match alookup sim.states p with
  | none => (p.1, p.2, 0, 0)
  | some ag => (p.1, p.2, ag.health, ag.money)

/-- Predicate `is_valid_state(position)`: inside the `width × height` grid. -/
def is_valid_state (sim : Sim) (p : Pos) : Bool :=
  decide (0 ≤ p.1 ∧ p.1 < (sim.width : Int) ∧ 0 ≤ p.2 ∧ p.2 < (sim.height : Int))

/-- The clamped next position computed at the top of `step`: raw delta,
falling back to the current position when out of bounds. -/
def clampNext (sim : Sim) (state : Pos) (action : Act) : Pos :=
  let next := (state.1 + action.1, state.2 + action.2)
  if is_valid_state sim next then next else state

/-- Function `compute_reward(state, action, next_state)`; `none` models the
`KeyError` of `self.states[state]` when `state` is not a key. -/
def compute_reward (sim : Sim) (state : Pos) (action : Act) (next_state : Pos) : Option ℚ :=
  match alookup sim.states state with
  | none => none
  | some ag =>
    let r1 : ℚ := if action ≠ (0, 0) then 0 - 1 / 5 else 0
    let r2 := r1 + (ag.health : ℚ) / 10
    let r3 := if next_state ∈ sim.foods then r2 + 10 else r2
    let r4 := if next_state ∈ sim.moneyTiles then r3 + 5 else r3
    some r4

/-- Which line of `step` raised the `KeyError` on `self.states[state]`. -/
inductive Err where
  | keyErrFood
  | keyErrMoney
  | keyErrReward
deriving DecidableEq

deriving instance DecidableEq for Except

/-- Tail of `step`: compute the reward and return `(next_state, reward)`. -/
def stepReward (sim : Sim) (state : Pos) (action : Act) (next : Pos) :
    Except Err (Pos × ℚ) × Sim :=
  match compute_reward sim state action next with
  | none => (Except.error Err.keyErrReward, sim)
  | some r => (Except.ok (next, r), sim)

/-- Money-collection block of `step`: `self.states[state]['money'] += 1`
and removal of the tile, before the reward is computed. -/
def stepMoney (sim : Sim) (state : Pos) (action : Act) (next : Pos) :
    Except Err (Pos × ℚ) × Sim :=
  if next ∈ sim.moneyTiles then
    match alookup sim.states state with
    | none => (Except.error Err.keyErrMoney, sim)
    | some ag =>
      stepReward
        { sim with
          states := aset sim.states state ⟨ag.health, ag.money + 1⟩,
          moneyTiles := sim.moneyTiles.erase next } state action next
  else stepReward sim state action next

/-- Food-consumption block of `step`: `self.states[state]['health'] += 5`
and removal of the tile, before the money block and the reward. -/
def stepFood (sim : Sim) (state : Pos) (action : Act) (next : Pos) :
    Except Err (Pos × ℚ) × Sim :=
  if next ∈ sim.foods then
    match alookup sim.states state with
    | none => (Except.error Err.keyErrFood, sim)
    | some ag =>
      stepMoney
        { sim with
          states := aset sim.states state ⟨ag.health + 5, ag.money⟩,
          foods := sim.foods.erase next } state action next
  else stepMoney sim state action next

/-- Function `step(state, action)`: clamp the next position, insert the default
`{'health': 10, 'money': 0}` record when the next position is unoccupied,
consume resources, then compute the reward.  The returned `Sim` carries
every mutation performed before a `KeyError`, as in Python. -/
def step (sim : Sim) (state : Pos) (action : Act) : Except Err (Pos × ℚ) × Sim :=
  stepFood
    (if alookup sim.states (clampNext sim state action) = none
     then { sim with states := aset sim.states (clampNext sim state action) ⟨10, 0⟩ }
     else sim)
    state action (clampNext sim state action)

/-- The zero-initialised Q-row `{a: 0.0 for a in self.actions}`. -/
def zeroRow : Row := actions.map fun a => (a, (0 : ℚ))

/-- Lazy initialisation `if key not in self.q_table: … = {a: 0.0 …}`. -/
def initRow (q : QTable) (k : StateKey) : QTable :=
  match alookup q k with
  | none => aset q k zeroRow
  | some _ => q

/-- Python `max` over a nonempty list of values, in iteration order. -/
def maxVals : List ℚ → Option ℚ
  | [] => none
  | x :: xs =>
    match maxVals xs with
    | none => some x
    | some m => some (max x m)

/-- Python `max(self.q_table[k].values())` for a row. -/
def rowMax (row : Row) : Option ℚ := maxVals (row.map Prod.snd)

/-- Both lazy initialisations performed by `q_learning_update`, in order. -/
def initRows (sim : Sim) (s n : Pos) : QTable :=
  initRow (initRow sim.qTable (get_state_key sim s)) (get_state_key sim n)

/-- Lookup of a single Q-value `q_table[k][a]`. -/
def qlookup (q : QTable) (k : StateKey) (a : Act) : Option ℚ :=
  (alookup q k).bind fun row => alookup row a

/-- Row maximum `max(q_table[k].values())` looked up by key. -/
def rowMaxAt (q : QTable) (k : StateKey) : Option ℚ :=
  (alookup q k).bind rowMax

/-- Function `q_learning_update(state, action, reward, next_state)`; `none` models
the `KeyError`/`ValueError` paths that the lazily initialised table never
takes. -/
def q_learning_update (sim : Sim) (state : Pos) (action : Act) (reward : ℚ)
    (next_state : Pos) : Option Sim :=
  let q₂ := initRows sim state next_state
  match alookup q₂ (get_state_key sim state) with
  | none => none
  | some row =>
    match alookup row action with
    | none => none
    | some cur =>
      match rowMaxAt q₂ (get_state_key sim next_state) with
      | none => none
      | some mx =>
        some { sim with
          qTable := aset q₂ (get_state_key sim state)
            (aset row action (cur + LEARNING_RATE * (reward + GAMMA * mx - cur))) }

/-- First block of `replenish_resources`: top up `foods` from the random
stream when its size is below the food threshold. -/
def replenishFood (sim : Sim) (foodThr : Nat) (stream : List Pos) :
    Option (Sim × List Pos) :=
  if sim.foods.card < foodThr then
    match generate_resources (foodThr - sim.foods.card) stream with
    | none => none
    | some (nf, rest) => some ({ sim with foods := sim.foods ∪ nf }, rest)
  else some (sim, stream)

/-- Second block of `replenish_resources`: likewise for `money_tiles`. -/
def replenishMoney (sim : Sim) (moneyThr : Nat) (stream : List Pos) :
    Option (Sim × List Pos) :=
  if sim.moneyTiles.card < moneyThr then
    match generate_resources (moneyThr - sim.moneyTiles.card) stream with
    | none => none
    | some (nm, rest) => some ({ sim with moneyTiles := sim.moneyTiles ∪ nm }, rest)
  else some (sim, stream)

/-- Function `replenish_resources(food_threshold, money_threshold)`: the two
blocks run in sequence on the same random stream. -/
def replenish_resources (sim : Sim) (foodThr moneyThr : Nat) (stream : List Pos) :
    Option (Sim × List Pos) :=
  match replenishFood sim foodThr stream with
  | none => none
  | some (sim₁, s₁) => replenishMoney sim₁ moneyThr s₁

/-- Function `reset_environment()`: clear the agent store, regenerate the pools
with the default counts 50 and 20, then re-add 3 initial cells with
`{'health': 10, 'money': 5}` at random positions. -/
def reset_environment (sim : Sim) (stream : List Pos) : Option (Sim × List Pos) :=
  match generate_resources 50 stream with
  | none => none
  | some (nf, s₁) =>
    match generate_resources 20 s₁ with
    | none => none
    | some (nm, s₂) =>
      match s₂ with
      | p1 :: p2 :: p3 :: s₃ =>
        some ({ sim with
          states := aset (aset (aset [] p1 ⟨10, 5⟩) p2 ⟨10, 5⟩) p3 ⟨10, 5⟩,
          foods := nf,
          moneyTiles := nm }, s₃)
      | _ => none

/-- Per-agent body of the tick loop in `main` (lines 282–299): the lazy
Q-row initialisation of `choose_action`, the `step`, and the commit
`if state['health'] > 0: new_states[next_pos] = {'health': max(0, h-1), …}`
into the accumulating `new_states` dict.  `none` models an uncaught
exception escaping the loop. -/
def tickLoop (policy : Pos → Act) :
    List Pos → Sim → List (Pos × Agent) → Option (Sim × List (Pos × Agent))
  | [], sim, ns => some (sim, ns)
  | p :: rest, sim, ns =>
    let sim₀ := { sim with qTable := initRow sim.qTable (get_state_key sim p) }
    match step sim₀ p (policy p) with
    | (Except.error _, _) => none
    | (Except.ok (next, _), sim') =>
      match alookup sim'.states p with
      | none => none
      | some ag =>
        tickLoop policy rest sim'
          (if 0 < ag.health
           then aset ns next ⟨max 0 (ag.health - 1), ag.money⟩
           else ns)

/-- One simulation tick of `main` (lines 282–301): step every snapshotted
agent, replace the store by the committed `new_states`, then replenish
with thresholds 10 and 5. -/
def tick (sim : Sim) (policy : Pos → Act) (stream : List Pos) : Option Sim :=
  match tickLoop policy (sim.states.map Prod.fst) sim [] with
  | none => none
  | some (sim₁, ns) =>
    match replenish_resources { sim₁ with states := ns } 10 5 stream with
    | none => none
    | some (sim₂, _) => some sim₂

/-- Health of the agent stored at a position. -/
def healthAt (sim : Sim) (p : Pos) : Option Int :=
  (alookup sim.states p).map Agent.health

/-- The error carried by a `step` result, `none` when the call returned. -/
def resultErr {α : Type} : Except Err α → Option Err
  | Except.ok _ => none
  | Except.error e => some e

/-- A 20×20 grid with a single full-health agent at the origin. -/
def simA : Sim :=
  { width := 20, height := 20, states := [((0, 0), ⟨10, 0⟩)],
    foods := ∅, moneyTiles := ∅, qTable := [] }

/-- As `simA` but the agent's health is 0. -/
def simB : Sim :=
  { width := 20, height := 20, states := [((0, 0), ⟨0, 0⟩)],
    foods := ∅, moneyTiles := ∅, qTable := [] }

/-- Agent at the origin, food tile at `(0, 1)`. -/
def simCfood : Sim := { simA with foods := {(0, 1)} }

/-- Agent at the origin, money tile at `(0, 1)`. -/
def simCmoney : Sim := { simA with moneyTiles := {(0, 1)} }

/-- Empty store, one food tile at the origin, money pool at threshold. -/
def simD : Sim :=
  { width := 20, height := 20, states := [],
    foods := {(0, 0)},
    moneyTiles := ((List.range 5).map fun i => ((i : Int), 6)).toFinset,
    qTable := [] }

/-- Nine distinct draws, the first colliding with the food at `(0, 0)`. -/
def streamD : List Pos := (List.range 9).map fun i => ((i : Int), 0)

/-- Completely empty 20×20 simulation. -/
def simEmpty : Sim :=
  { width := 20, height := 20, states := [], foods := ∅, moneyTiles := ∅, qTable := [] }

/-- Random stream for one `reset_environment` call: 50 distinct food
draws, 20 distinct money draws, then 3 distinct cell positions. -/
def streamReset : List Pos :=
  ((List.range 50).map fun i => ((i : Int), 0))
    ++ ((List.range 20).map fun i => ((i : Int), 1))
    ++ [(0, 2), (1, 2), (2, 2)]

/-- Single agent with health 1; pools already at their thresholds. -/
def simTick : Sim :=
  { width := 20, height := 20, states := [((0, 0), ⟨1, 0⟩)],
    foods := ((List.range 10).map fun i => ((i : Int), 5)).toFinset,
    moneyTiles := ((List.range 5).map fun i => ((i : Int), 6)).toFinset,
    qTable := [] }

/-- Result of replenishing `simEmpty` with thresholds 1/0 and stream `[(0,0)]`. -/
def simDW : Sim := { simEmpty with foods := simEmpty.foods ∪ insert (0, 0) ∅ }

/-- Empty store with a food tile at the origin. -/
def simE : Sim :=
  { width := 20, height := 20, states := [], foods := {(0, 0)},
    moneyTiles := ∅, qTable := [] }

/-- Empty store with a food tile at `(0, 1)`. -/
def simF : Sim :=
  { width := 20, height := 20, states := [], foods := {(0, 1)},
    moneyTiles := ∅, qTable := [] }

/-- The Q-table produced by one `q_learning_update` on `simEmpty`. -/
def simQout : Sim :=
  { simEmpty with
    qTable := aset (initRows simEmpty (0, 0) (0, 0)) (get_state_key simEmpty (0, 0))
      (aset zeroRow (0, 1) (0 + LEARNING_RATE * (1 + GAMMA * 0 - 0))) }

theorem alookup_aset_self {α β : Type} [DecidableEq α] (l : List (α × β)) (k : α) (v : β) :
    alookup (aset l k v) k = some v := by
  induction l with
  | nil => simp [aset, alookup]
  | cons hd tl ih =>
    obtain ⟨k', v'⟩ := hd
    by_cases h : k = k'
    · subst h
      simp [aset, alookup]
    · simp [aset, alookup, h, ih]

theorem alookup_aset_ne {α β : Type} [DecidableEq α] (l : List (α × β)) (k k' : α) (v : β)
    (h : k' ≠ k) : alookup (aset l k v) k' = alookup l k' := by
  induction l with
  | nil => simp [aset, alookup, h]
  | cons hd tl ih =>
    obtain ⟨k₀, v₀⟩ := hd
    by_cases hk : k = k₀
    · subst hk
      simp [aset, alookup, h]
    · by_cases hk' : k' = k₀ <;> simp [aset, alookup, hk, hk', ih]

theorem mem_aset {α β : Type} [DecidableEq α] (l : List (α × β)) (k : α) (v : β)
    (p : α × β) (hp : p ∈ aset l k v) : p ∈ l ∨ p = (k, v) := by
  induction l with
  | nil =>
    simp [aset] at hp
    exact Or.inr hp
  | cons hd tl ih =>
    obtain ⟨k₀, v₀⟩ := hd
    by_cases hk : k = k₀
    · subst hk
      simp [aset] at hp
      rcases hp with hp | hp
      · exact Or.inr (by simp [hp])
      · exact Or.inl (List.mem_cons_of_mem _ hp)
    · simp [aset, hk] at hp
      rcases hp with hp | hp
      · exact Or.inl (by simp [hp])
      · rcases ih hp with h | h
        · exact Or.inl (List.mem_cons_of_mem _ h)
        · exact Or.inr h

theorem aset_length_le {α β : Type} [DecidableEq α] (l : List (α × β)) (k : α) (v : β) :
    (aset l k v).length ≤ l.length + 1 := by
  induction l with
  | nil => simp [aset]
  | cons hd tl ih =>
    obtain ⟨k₀, v₀⟩ := hd
    by_cases hk : k = k₀
    · simp [aset, hk]
    · simp only [aset, hk, if_false, List.length_cons]
      omega

theorem le_aset_length {α β : Type} [DecidableEq α] (l : List (α × β)) (k : α) (v : β) :
    l.length ≤ (aset l k v).length := by
  induction l with
  | nil => simp [aset]
  | cons hd tl ih =>
    obtain ⟨k₀, v₀⟩ := hd
    by_cases hk : k = k₀
    · simp [aset, hk]
    · simp only [aset, hk, if_false, List.length_cons]
      omega

theorem stepReward_sim (sim : Sim) (s : Pos) (a : Act) (n : Pos) :
    (stepReward sim s a n).2 = sim := by
  cases h : compute_reward sim s a n <;> simp [stepReward, h]

theorem compute_reward_isSome (sim : Sim) (s : Pos) (a : Act) (n : Pos) (ag : Agent)
    (hs : alookup sim.states s = some ag) :
    compute_reward sim s a n =
      some ((if a = (0, 0) then 0 else 0 - (1 / 5 : ℚ)) + (ag.health : ℚ) / 10
        + (if n ∈ sim.foods then (10 : ℚ) else 0)
        + (if n ∈ sim.moneyTiles then (5 : ℚ) else 0)) := by
  rw [compute_reward, hs]
  by_cases ha : a = (0, 0) <;> by_cases hf : n ∈ sim.foods <;>
    by_cases hm : n ∈ sim.moneyTiles <;> simp [ha, hf, hm]

theorem compute_reward_none (sim : Sim) (s : Pos) (a : Act) (n : Pos)
    (hs : alookup sim.states s = none) : compute_reward sim s a n = none := by
  rw [compute_reward, hs]

theorem stepMoney_at (sim : Sim) (s : Pos) (a : Act) (n : Pos) (ag : Agent)
    (hs : alookup sim.states s = some ag) :
    alookup (stepMoney sim s a n).2.states s =
      some ⟨ag.health, ag.money + (if n ∈ sim.moneyTiles then 1 else 0)⟩ := by
  by_cases hm : n ∈ sim.moneyTiles
  · simp [stepMoney, hm, hs, stepReward_sim, alookup_aset_self]
  · simp [stepMoney, hm, stepReward_sim, hs]

theorem stepFood_at (sim : Sim) (s : Pos) (a : Act) (n : Pos) (ag : Agent)
    (hs : alookup sim.states s = some ag) :
    alookup (stepFood sim s a n).2.states s =
      some ⟨ag.health + (if n ∈ sim.foods then 5 else 0),
            ag.money + (if n ∈ sim.moneyTiles then 1 else 0)⟩ := by
  by_cases hf : n ∈ sim.foods
  · have h₂ : alookup (aset sim.states s (Agent.mk (ag.health + 5) ag.money)) s =
        some ⟨ag.health + 5, ag.money⟩ := alookup_aset_self _ _ _
    simp only [stepFood, hf, if_true, hs]
    rw [stepMoney_at _ _ _ _ _ h₂]
  · simp only [stepFood, hf, if_false]
    rw [stepMoney_at _ _ _ _ _ hs]
    simp [hf]

theorem stepMoney_frame (sim : Sim) (s : Pos) (a : Act) (n : Pos) (k : Pos) (hk : k ≠ s) :
    alookup (stepMoney sim s a n).2.states k = alookup sim.states k := by
  by_cases hm : n ∈ sim.moneyTiles
  · cases hs : alookup sim.states s with
    | none => simp [stepMoney, hm, hs]
    | some ag => simp [stepMoney, hm, hs, stepReward_sim, alookup_aset_ne _ _ _ _ hk]
  · simp [stepMoney, hm, stepReward_sim]

theorem stepFood_frame (sim : Sim) (s : Pos) (a : Act) (n : Pos) (k : Pos) (hk : k ≠ s) :
    alookup (stepFood sim s a n).2.states k = alookup sim.states k := by
  by_cases hf : n ∈ sim.foods
  · cases hs : alookup sim.states s with
    | none => simp [stepFood, hf, hs]
    | some ag =>
      simp only [stepFood, hf, if_true, hs]
      rw [stepMoney_frame _ _ _ _ _ hk]
      simp [alookup_aset_ne _ _ _ _ hk]
  · simp only [stepFood, hf, if_false]
    exact stepMoney_frame _ _ _ _ _ hk

theorem stepReward_err (sim : Sim) (s : Pos) (a : Act) (n : Pos) :
    resultErr (stepReward sim s a n).1 =
      match alookup sim.states s with
      | some _ => none
      | none => some Err.keyErrReward := by
  cases hs : alookup sim.states s with
  | none => simp [stepReward, compute_reward_none _ _ a n hs, resultErr]
  | some ag => simp [stepReward, compute_reward_isSome sim s a n ag hs, resultErr]

theorem stepMoney_err (sim : Sim) (s : Pos) (a : Act) (n : Pos) :
    resultErr (stepMoney sim s a n).1 =
      match alookup sim.states s with
      | some _ => none
      | none =>
        some (if n ∈ sim.moneyTiles then Err.keyErrMoney else Err.keyErrReward) := by
  cases hs : alookup sim.states s with
  | none =>
    by_cases hm : n ∈ sim.moneyTiles
    · simp [stepMoney, hm, hs, resultErr]
    · simp only [stepMoney, hm, if_false]
      rw [stepReward_err]
      simp [hs, hm]
  | some ag =>
    by_cases hm : n ∈ sim.moneyTiles
    · simp only [stepMoney, hm, if_true, hs]
      rw [stepReward_err]
      simp [alookup_aset_self]
    · simp only [stepMoney, hm, if_false]
      rw [stepReward_err]
      simp [hs]

theorem stepFood_err (sim : Sim) (s : Pos) (a : Act) (n : Pos) :
    resultErr (stepFood sim s a n).1 =
      match alookup sim.states s with
      | some _ => none
      | none =>
        some (if n ∈ sim.foods then Err.keyErrFood
          else if n ∈ sim.moneyTiles then Err.keyErrMoney else Err.keyErrReward) := by
  cases hs : alookup sim.states s with
  | none =>
    by_cases hf : n ∈ sim.foods
    · simp [stepFood, hf, hs, resultErr]
    · simp only [stepFood, hf, if_false]
      rw [stepMoney_err]
      simp [hs, hf]
  | some ag =>
    by_cases hf : n ∈ sim.foods
    · have h₂ : alookup (aset sim.states s (Agent.mk (ag.health + 5) ag.money)) s =
        some ⟨ag.health + 5, ag.money⟩ := alookup_aset_self _ _ _
      simp only [stepFood, hf, if_true, hs]
      rw [stepMoney_err]
      simp [h₂]
    · simp only [stepFood, hf, if_false]
      rw [stepMoney_err]
      simp [hs]

theorem alookup_initRow_ne (q : QTable) (k k' : StateKey) (h : k' ≠ k) :
    alookup (initRow q k) k' = alookup q k' := by
  unfold initRow
  cases hk : alookup q k with
  | none => exact alookup_aset_ne _ _ _ _ h
  | some r => rfl

theorem alookup_initRow_none (q : QTable) (k : StateKey) (h : alookup q k = none) :
    alookup (initRow q k) k = some zeroRow := by
  unfold initRow
  rw [h]
  exact alookup_aset_self _ _ _

theorem initRow_of_some (q : QTable) (k : StateKey) (r : Row)
    (h : alookup q k = some r) : initRow q k = q := by
  unfold initRow
  rw [h]

theorem alookup_initRow_preserve (q : QTable) (k k' : StateKey) (r : Row)
    (h : alookup q k' = some r) : alookup (initRow q k) k' = some r := by
  cases hk : alookup q k with
  | none =>
    unfold initRow
    rw [hk]
    by_cases he : k' = k
    · subst he
      rw [h] at hk
      cases hk
    · rw [alookup_aset_ne _ _ _ _ he]
      exact h
  | some r' =>
    rw [initRow_of_some _ _ _ hk]
    exact h

theorem genResAux_card (count : Nat) (stream : List Pos) :
    ∀ (acc : Finset Pos), acc.card ≤ count →
      ∀ s rest, genResAux count stream acc = some (s, rest) → s.card = count := by
  induction stream with
  | nil =>
    intro acc hacc s rest h
    by_cases hc : count ≤ acc.card
    · simp only [genResAux, hc, if_true, Option.some.injEq, Prod.mk.injEq] at h
      obtain ⟨h₁, _⟩ := h
      subst h₁
      omega
    · simp [genResAux, hc] at h
  | cons p tl ih =>
    intro acc hacc s rest h
    by_cases hc : count ≤ acc.card
    · simp only [genResAux, hc, if_true, Option.some.injEq, Prod.mk.injEq] at h
      obtain ⟨h₁, _⟩ := h
      subst h₁
      omega
    · simp only [genResAux, hc, if_false] at h
      have hlt : acc.card < count := by omega
      have : (insert p acc).card ≤ count := by
        have := Finset.card_insert_le p acc
        omega
      exact ih (insert p acc) this s rest h

theorem generate_resources_card (count : Nat) (stream : List Pos)
    (s : Finset Pos) (rest : List Pos)
    (h : generate_resources count stream = some (s, rest)) : s.card = count := by
  exact genResAux_card count stream ∅ (by simp) s rest h

theorem replenishFood_spec (sim : Sim) (ft : Nat) (stream : List Pos)
    (sim' : Sim) (rest : List Pos)
    (h : replenishFood sim ft stream = some (sim', rest)) :
    sim'.states = sim.states ∧ sim'.moneyTiles = sim.moneyTiles ∧
    sim.foods ⊆ sim'.foods ∧
    (sim.foods.card < ft → sim'.foods.card ≤ ft ∧ ft - sim.foods.card ≤ sim'.foods.card) ∧
    (ft ≤ sim.foods.card → sim'.foods = sim.foods) := by
  unfold replenishFood at h
  by_cases hf : sim.foods.card < ft
  · simp only [hf, if_true] at h
    cases hg : generate_resources (ft - sim.foods.card) stream with
    | none => rw [hg] at h; simp at h
    | some pr =>
      obtain ⟨nf, s₁⟩ := pr
      rw [hg] at h
      simp only [Option.some.injEq, Prod.mk.injEq] at h
      obtain ⟨h₁, _⟩ := h
      rw [← h₁]
      have hnf : nf.card = ft - sim.foods.card := generate_resources_card _ _ _ _ hg
      refine ⟨rfl, rfl, Finset.subset_union_left, fun _ => ⟨?_, ?_⟩, fun hle => ?_⟩
      · have := Finset.card_union_le sim.foods nf
        simp only at this ⊢
        omega
      · have hsub : nf ⊆ sim.foods ∪ nf := Finset.subset_union_right
        have := Finset.card_le_card hsub
        simp only at this ⊢
        omega
      · omega
  · simp only [hf, if_false, Option.some.injEq, Prod.mk.injEq] at h
    obtain ⟨h₁, _⟩ := h
    rw [← h₁]
    exact ⟨rfl, rfl, Finset.Subset.refl _, fun hlt => absurd hlt hf, fun _ => rfl⟩

theorem replenishMoney_spec (sim : Sim) (mt : Nat) (stream : List Pos)
    (sim' : Sim) (rest : List Pos)
    (h : replenishMoney sim mt stream = some (sim', rest)) :
    sim'.states = sim.states ∧ sim'.foods = sim.foods ∧
    sim.moneyTiles ⊆ sim'.moneyTiles ∧
    (sim.moneyTiles.card < mt →
      sim'.moneyTiles.card ≤ mt ∧ mt - sim.moneyTiles.card ≤ sim'.moneyTiles.card) ∧
    (mt ≤ sim.moneyTiles.card → sim'.moneyTiles = sim.moneyTiles) := by
  unfold replenishMoney at h
  by_cases hm : sim.moneyTiles.card < mt
  · simp only [hm, if_true] at h
    cases hg : generate_resources (mt - sim.moneyTiles.card) stream with
    | none => rw [hg] at h; simp at h
    | some pr =>
      obtain ⟨nm, s₁⟩ := pr
      rw [hg] at h
      simp only [Option.some.injEq, Prod.mk.injEq] at h
      obtain ⟨h₁, _⟩ := h
      rw [← h₁]
      have hnm : nm.card = mt - sim.moneyTiles.card := generate_resources_card _ _ _ _ hg
      refine ⟨rfl, rfl, Finset.subset_union_left, fun _ => ⟨?_, ?_⟩, fun hle => ?_⟩
      · have := Finset.card_union_le sim.moneyTiles nm
        simp only at this ⊢
        omega
      · have hsub : nm ⊆ sim.moneyTiles ∪ nm := Finset.subset_union_right
        have := Finset.card_le_card hsub
        simp only at this ⊢
        omega
      · omega
  · simp only [hm, if_false, Option.some.injEq, Prod.mk.injEq] at h
    obtain ⟨h₁, _⟩ := h
    rw [← h₁]
    exact ⟨rfl, rfl, Finset.Subset.refl _, fun hlt => absurd hlt hm, fun _ => rfl⟩

theorem replenish_split (sim : Sim) (ft mt : Nat) (stream : List Pos)
    (sim' : Sim) (rest : List Pos)
    (h : replenish_resources sim ft mt stream = some (sim', rest)) :
    ∃ sim₁ s₁, replenishFood sim ft stream = some (sim₁, s₁) ∧
      replenishMoney sim₁ mt s₁ = some (sim', rest) := by
  unfold replenish_resources at h
  cases hg : replenishFood sim ft stream with
  | none => rw [hg] at h; simp at h
  | some pr =>
    obtain ⟨sim₁, s₁⟩ := pr
    rw [hg] at h
    exact ⟨sim₁, s₁, rfl, h⟩

theorem replenish_states (sim : Sim) (ft mt : Nat) (stream : List Pos)
    (sim' : Sim) (rest : List Pos)
    (h : replenish_resources sim ft mt stream = some (sim', rest)) :
    sim'.states = sim.states := by
  obtain ⟨sim₁, s₁, h₁, h₂⟩ := replenish_split sim ft mt stream sim' rest h
  rw [(replenishMoney_spec _ _ _ _ _ h₂).1, (replenishFood_spec _ _ _ _ _ h₁).1]

theorem tickLoop_health (policy : Pos → Act) (ps : List Pos) :
    ∀ (sim : Sim) (ns : List (Pos × Agent)), (∀ pa ∈ ns, 0 ≤ pa.2.health) →
      ∀ sim₁ ns', tickLoop policy ps sim ns = some (sim₁, ns') →
        ∀ pa ∈ ns', 0 ≤ pa.2.health := by
  induction ps with
  | nil =>
    intro sim ns hns sim₁ ns' h pa hpa
    simp only [tickLoop, Option.some.injEq, Prod.mk.injEq] at h
    rw [← h.2] at hpa
    exact hns pa hpa
  | cons p rest ih =>
    intro sim ns hns sim₁ ns' h pa hpa
    simp only [tickLoop] at h
    set sim₀ : Sim := { sim with qTable := initRow sim.qTable (get_state_key sim p) } with hsim₀
    cases hstep : step sim₀ p (policy p) with
    | mk res simS =>
      rw [hstep] at h
      cases res with
      | error e => simp at h
      | ok pr =>
        obtain ⟨next, rew⟩ := pr
        simp only at h
        cases hag : alookup simS.states p with
        | none => rw [hag] at h; simp at h
        | some ag =>
          rw [hag] at h
          simp only at h
          refine ih simS _ ?_ sim₁ ns' h pa hpa
          intro pb hpb
          by_cases h0 : 0 < ag.health
          · simp only [h0, if_true] at hpb
            rcases mem_aset _ _ _ _ hpb with hmem | heq
            · exact hns pb hmem
            · rw [heq]
              exact le_max_left 0 _
          · simp only [h0, if_false] at hpb
            exact hns pb hpb

/-- C1 (counterexample): an in-bounds non-stay move with no food at the
target leaves the acting agent's health unchanged at 10; the change is 0,
not the claimed fixed −1 per-move penalty. -/
theorem C1_counterexample :
    healthAt (step simA (0, 0) (0, 1)).2 (0, 0) = some 10 ∧
    ¬ ((10 : Int) = 10 + (-1)) := by decide

/-- C1 (amended): `step` applies no per-move health penalty at all: the
acting agent's health after `step` equals its old health plus 5 exactly
when the clamped next position held food, else plus 0.  (The −1 decrement
lives in the main-loop commit, not in `step`.) -/
theorem C1_step_health (sim : Sim) (s : Pos) (a : Act) (ag : Agent)
    (hs : alookup sim.states s = some ag) :
    healthAt (step sim s a).2 s =
      some (ag.health + (if clampNext sim s a ∈ sim.foods then 5 else 0)) := by
  unfold healthAt step
  by_cases hn : alookup sim.states (clampNext sim s a) = none
  · rw [if_pos hn]
    have hne : s ≠ clampNext sim s a := by
      intro he
      rw [← he, hs] at hn
      cases hn
    have h1 : alookup (aset sim.states (clampNext sim s a) ⟨10, 0⟩) s = some ag := by
      rw [alookup_aset_ne _ _ _ _ hne]
      exact hs
    rw [stepFood_at _ s a _ ag h1]
    simp
  · rw [if_neg hn]
    rw [stepFood_at _ s a _ ag hs]
    simp

/-- C1 (witness): the amended statement evaluated on `simA`. -/
theorem C1_step_health_witness :
    healthAt (step simA (0, 0) (0, 1)).2 (0, 0) =
      some ((10 : Int) + (if clampNext simA (0, 0) (0, 1) ∈ simA.foods then 5 else 0)) :=
  C1_step_health simA (0, 0) (0, 1) ⟨10, 0⟩ (by decide)

/-- C2 (counterexample): stepping a health-0 agent is a transition whose
resulting health is ≤ 0, yet the returned reward is 0, not −100. -/
theorem C2_counterexample :
    (step simB (0, 0) (0, 0)).1 = Except.ok ((0, 0), 0) ∧
    healthAt (step simB (0, 0) (0, 0)).2 (0, 0) = some 0 ∧
    (0 : Int) ≤ 0 ∧ (0 : ℚ) ≠ -100 := by
  refine ⟨?_, by decide, by decide, by norm_num⟩
  simp [step, stepFood, stepMoney, stepReward, compute_reward, clampNext, is_valid_state,
    alookup, simB]

/-- C2 (amended): `compute_reward` has no death case: whenever the acting
agent is stored with nonnegative health, the reward is at least −0.2 and
in particular never the claimed −100 override. -/
theorem C2_reward_no_death (sim : Sim) (s : Pos) (a : Act) (n : Pos) (ag : Agent) (r : ℚ)
    (hs : alookup sim.states s = some ag) (hh : 0 ≤ ag.health)
    (hr : compute_reward sim s a n = some r) :
    0 - 1 / 5 ≤ r ∧ r ≠ -100 := by
  rw [compute_reward_isSome sim s a n ag hs, Option.some.injEq] at hr
  have h0 : (0 : ℚ) ≤ (ag.health : ℚ) := by exact_mod_cast hh
  have h1 : (0 : ℚ) ≤ (ag.health : ℚ) / 10 := by positivity
  have hge : 0 - 1 / 5 ≤ r := by
    rw [← hr]
    split_ifs <;> linarith
  refine ⟨hge, fun he => ?_⟩
  rw [he] at hge
  norm_num at hge

/-- C2 (witness): the amended statement evaluated on `simB`. -/
theorem C2_reward_no_death_witness : 0 - 1 / 5 ≤ (0 : ℚ) ∧ (0 : ℚ) ≠ -100 :=
  C2_reward_no_death simB (0, 0) (0, 0) (0, 0) ⟨0, 0⟩ 0 (by decide) (by decide)
    (by simp [compute_reward, alookup, simB])

/-- C3 (code bug evaluated): with food at the clamped target `(0, 1)`,
`step` returns reward 1.3 (movement −0.2 plus boosted health 15/10): the
+10 food bonus is missing because `step` removes the tile before calling
`compute_reward`; symmetrically the +5 money bonus is missing (reward
0.8). -/
theorem C3_step_reward_misses_bonus :
    clampNext simCfood (0, 0) (0, 1) ∈ simCfood.foods ∧
    (step simCfood (0, 0) (0, 1)).1 = Except.ok ((0, 1), 13 / 10) ∧ (13 / 10 : ℚ) < 10 ∧
    clampNext simCmoney (0, 0) (0, 1) ∈ simCmoney.moneyTiles ∧
    (step simCmoney (0, 0) (0, 1)).1 = Except.ok ((0, 1), 4 / 5) ∧ (4 / 5 : ℚ) < 5 := by
  refine ⟨by decide, ?_, by norm_num, by decide, ?_, by norm_num⟩
  · simp [step, stepFood, stepMoney, stepReward, compute_reward, clampNext, is_valid_state,
      alookup, aset, simCfood, simA]
    norm_num
  · simp [step, stepFood, stepMoney, stepReward, compute_reward, clampNext, is_valid_state,
      alookup, aset, simCmoney, simA]
    norm_num

/-- C4 (counterexample): `foods = {(0,0)}` and threshold 10, but the nine
generated positions include the pre-existing `(0,0)`, so the call results
in 9 food positions, not exactly 10. -/
theorem C4_counterexample :
    ((replenish_resources simD 10 5 streamD).map fun p => p.1.foods.card) = some 9 ∧
    (9 : Nat) ≠ 10 := by decide

/-- C4 (amended): a replenishment call grows each deficient pool by a
freshly generated set of exactly `threshold − |pool|` positions that are
unique among themselves but may coincide with pre-existing entries, so the
result contains the old pool, has at least `threshold − |pool|` and at
most `threshold` entries (exactly `threshold` only without collisions);
pools at or above threshold are untouched, and the agent store is never
touched. -/
theorem C4_replenish_bounds (sim : Sim) (ft mt : Nat) (stream : List Pos)
    (sim' : Sim) (rest : List Pos)
    (h : replenish_resources sim ft mt stream = some (sim', rest)) :
    sim.foods ⊆ sim'.foods ∧ sim.moneyTiles ⊆ sim'.moneyTiles ∧
    sim'.states = sim.states ∧
    (sim.foods.card < ft → sim'.foods.card ≤ ft ∧ ft - sim.foods.card ≤ sim'.foods.card) ∧
    (ft ≤ sim.foods.card → sim'.foods = sim.foods) ∧
    (sim.moneyTiles.card < mt →
      sim'.moneyTiles.card ≤ mt ∧ mt - sim.moneyTiles.card ≤ sim'.moneyTiles.card) ∧
    (mt ≤ sim.moneyTiles.card → sim'.moneyTiles = sim.moneyTiles) := by
  obtain ⟨sim₁, s₁, h₁, h₂⟩ := replenish_split sim ft mt stream sim' rest h
  obtain ⟨fSt, fMt, fSub, fLt, fGe⟩ := replenishFood_spec _ _ _ _ _ h₁
  obtain ⟨mSt, mFd, mSub, mLt, mGe⟩ := replenishMoney_spec _ _ _ _ _ h₂
  rw [fMt] at mSub mLt mGe
  rw [← mFd] at fSub fLt fGe
  exact ⟨fSub, mSub, mSt.trans fSt, fLt, fGe, mLt, mGe⟩

/-- C4 (witness): the amended statement evaluated on the empty pool with
food threshold 1, money threshold 0 and one random draw. -/
theorem C4_replenish_bounds_witness :
    simEmpty.foods ⊆ simDW.foods ∧ simEmpty.moneyTiles ⊆ simDW.moneyTiles ∧
    simDW.states = simEmpty.states ∧
    (simEmpty.foods.card < 1 →
      simDW.foods.card ≤ 1 ∧ 1 - simEmpty.foods.card ≤ simDW.foods.card) ∧
    (1 ≤ simEmpty.foods.card → simDW.foods = simEmpty.foods) ∧
    (simEmpty.moneyTiles.card < 0 →
      simDW.moneyTiles.card ≤ 0 ∧ 0 - simEmpty.moneyTiles.card ≤ simDW.moneyTiles.card) ∧
    (0 ≤ simEmpty.moneyTiles.card → simDW.moneyTiles = simEmpty.moneyTiles) :=
  C4_replenish_bounds simEmpty 1 0 [(0, 0)] simDW [] rfl

/-- C5 (counterexample): one `reset_environment` call on an empty
simulation yields a store with 3 agents, not an empty-agent state. -/
theorem C5_counterexample :
    ((reset_environment simEmpty streamReset).map fun p => p.1.states.length) = some 3 ∧
    (3 : Nat) ≠ 0 := by decide

/-- C5 (amended): `reset_environment` regenerates the pools with the
default counts 50 and 20, but then re-seeds 1–3 initial cells (3 random
positions, possibly colliding), each with health 10 and money 5; the
resulting agent store is never empty. -/
theorem C5_reset_shape (sim : Sim) (stream : List Pos)
    (h : (reset_environment sim stream).isSome = true) :
    ((reset_environment sim stream).map fun p => p.1.foods.card) = some 50 ∧
    ((reset_environment sim stream).map fun p => p.1.moneyTiles.card) = some 20 ∧
    ((reset_environment sim stream).map fun p =>
      decide (1 ≤ p.1.states.length) && decide (p.1.states.length ≤ 3) &&
        (p.1.states.all fun pa => decide (pa.2 = Agent.mk 10 5))) = some true := by
  cases hv : reset_environment sim stream with
  | none => rw [hv] at h; simp at h
  | some pr =>
    obtain ⟨sim', rest⟩ := pr
    unfold reset_environment at hv
    cases hg1 : generate_resources 50 stream with
    | none => rw [hg1] at hv; simp at hv
    | some pr1 =>
      obtain ⟨nf, s₁⟩ := pr1
      rw [hg1] at hv
      simp only at hv
      cases hg2 : generate_resources 20 s₁ with
      | none => rw [hg2] at hv; simp at hv
      | some pr2 =>
        obtain ⟨nm, s₂⟩ := pr2
        rw [hg2] at hv
        simp only at hv
        cases s₂ with
        | nil => simp at hv
        | cons p1 t1 =>
          cases t1 with
          | nil => simp at hv
          | cons p2 t2 =>
            cases t2 with
            | nil => simp at hv
            | cons p3 s₃ =>
              simp only [Option.some.injEq, Prod.mk.injEq] at hv
              obtain ⟨hsim, _⟩ := hv
              rw [← hsim]
              have hf : nf.card = 50 := generate_resources_card _ _ _ _ hg1
              have hm : nm.card = 20 := generate_resources_card _ _ _ _ hg2
              have hlen1 : (aset ([] : List (Pos × Agent)) p1 ⟨10, 5⟩).length = 1 := rfl
              have hlen2l :=
                le_aset_length (aset ([] : List (Pos × Agent)) p1 ⟨10, 5⟩) p2 ⟨10, 5⟩
              have hlen3l :=
                le_aset_length
                  (aset (aset ([] : List (Pos × Agent)) p1 ⟨10, 5⟩) p2 ⟨10, 5⟩) p3 ⟨10, 5⟩
              have hlen2u :=
                aset_length_le (aset ([] : List (Pos × Agent)) p1 ⟨10, 5⟩) p2 ⟨10, 5⟩
              have hlen3u :=
                aset_length_le
                  (aset (aset ([] : List (Pos × Agent)) p1 ⟨10, 5⟩) p2 ⟨10, 5⟩) p3 ⟨10, 5⟩
              refine ⟨by simpa using hf, by simpa using hm, ?_⟩
              simp only [Option.map_some', Option.some.injEq, Bool.and_eq_true,
                decide_eq_true_eq, List.all_eq_true]
              refine ⟨⟨by omega, by omega⟩, ?_⟩
              intro pa hpa
              rcases mem_aset _ _ _ _ hpa with hpa2 | hpa2
              · rcases mem_aset _ _ _ _ hpa2 with hpa3 | hpa3
                · rcases mem_aset _ _ _ _ hpa3 with hpa4 | hpa4
                  · simp at hpa4
                  · rw [hpa4]
                · rw [hpa3]
              · rw [hpa2]

/-- C5 (witness): the amended statement evaluated on `simEmpty` with the
concrete random stream `streamReset`. -/
theorem C5_reset_shape_witness :
    ((reset_environment simEmpty streamReset).map fun p => p.1.foods.card) = some 50 ∧
    ((reset_environment simEmpty streamReset).map fun p => p.1.moneyTiles.card) = some 20 ∧
    ((reset_environment simEmpty streamReset).map fun p =>
      decide (1 ≤ p.1.states.length) && decide (p.1.states.length ≤ 3) &&
        (p.1.states.all fun pa => decide (pa.2 = Agent.mk 10 5))) = some true :=
  C5_reset_shape simEmpty streamReset (by decide)

/-- C6 (counterexample): a health-1 agent survives the tick and is
committed with health exactly 0 — it is not removed the tick its health
reaches zero, so the store can contain an agent without strictly positive
health. -/
theorem C6_counterexample :
    ((tick simTick (fun _ => (0, 0)) []).map fun s => alookup s.states (0, 0)) =
      some (some ⟨0, 0⟩) ∧ ¬ ((0 : Int) > 0) := by decide

/-- C6 (amended): after a tick every remaining agent has health ≥ 0
(survivors are committed with `max 0 (health − 1)`); an agent whose
committed health is exactly 0 stays in the store until the next tick. -/
theorem C6_tick_health (sim : Sim) (policy : Pos → Act) (stream : List Pos)
    (h : (tick sim policy stream).isSome = true) :
    ((tick sim policy stream).map fun s =>
      s.states.all fun pa => decide (0 ≤ pa.2.health)) = some true := by
  cases hv : tick sim policy stream with
  | none => rw [hv] at h; simp at h
  | some sim' =>
    unfold tick at hv
    cases hl : tickLoop policy (sim.states.map Prod.fst) sim [] with
    | none => rw [hl] at hv; simp at hv
    | some pr =>
      obtain ⟨sim₁, ns⟩ := pr
      rw [hl] at hv
      simp only at hv
      cases hr : replenish_resources { sim₁ with states := ns } 10 5 stream with
      | none => rw [hr] at hv; simp at hv
      | some pr2 =>
        obtain ⟨sim₂, rest⟩ := pr2
        rw [hr] at hv
        simp only [Option.some.injEq] at hv
        subst hv
        have hns : ∀ pa ∈ ns, 0 ≤ pa.2.health :=
          tickLoop_health policy _ sim [] (by simp) sim₁ ns hl
        have hst : sim₂.states = ns := by
          have := replenish_states _ _ _ _ _ _ hr
          simpa using this
        simp only [Option.map_some', Option.some.injEq, hst, List.all_eq_true]
        intro pa hpa
        simpa using hns pa hpa

/-- C6 (witness): the amended statement evaluated on `simTick` under the
stay policy. -/
theorem C6_tick_health_witness :
    ((tick simTick (fun _ => (0, 0)) []).map fun s =>
      s.states.all fun pa => decide (0 ≤ pa.2.health)) = some true :=
  C6_tick_health simTick (fun _ => (0, 0)) [] (by decide)

/-- C7: for an agent stored at `S`, `compute_reward(S, A, N)` equals the
movement penalty (−0.2 unless `A` is stay) plus `health(S)/10`, plus 10
when `N` is in the food pool, plus 5 when `N` is in the money pool; the
function only reads the store and the pools (it returns no mutated
state by construction). -/
theorem C7_reward_formula (sim : Sim) (s : Pos) (a : Act) (n : Pos) (ag : Agent)
    (hs : alookup sim.states s = some ag) :
    compute_reward sim s a n =
      some ((if a = (0, 0) then 0 else 0 - (1 / 5 : ℚ)) + (ag.health : ℚ) / 10
        + (if n ∈ sim.foods then (10 : ℚ) else 0)
        + (if n ∈ sim.moneyTiles then (5 : ℚ) else 0)) :=
  compute_reward_isSome sim s a n ag hs

/-- C7 (witness): the formula evaluated on `simCfood`. -/
theorem C7_reward_formula_witness :
    compute_reward simCfood (0, 0) (0, 1) (0, 1) =
      some ((if ((0, 1) : Act) = (0, 0) then 0 else 0 - (1 / 5 : ℚ))
        + (((10 : Int) : ℚ)) / 10
        + (if ((0, 1) : Pos) ∈ simCfood.foods then (10 : ℚ) else 0)
        + (if ((0, 1) : Pos) ∈ simCfood.moneyTiles then (5 : ℚ) else 0)) :=
  C7_reward_formula simCfood (0, 0) (0, 1) (0, 1) ⟨10, 0⟩ (by decide)

/-- C8: `q_learning_update(S, A, R, N)` lazily zero-initialises the rows
of `key(S)` and `key(N)` when unseen, leaves every other row alone, and
replaces only the entry at `(key(S), A)` by
`old + LEARNING_RATE · (R + GAMMA · maxRow(key(N)) − old)`. -/
theorem C8_q_update (sim : Sim) (s : Pos) (a : Act) (r : ℚ) (n : Pos)
    (row : Row) (old mx : ℚ)
    (hrow : alookup (initRows sim s n) (get_state_key sim s) = some row)
    (hold : alookup row a = some old)
    (hmx : rowMaxAt (initRows sim s n) (get_state_key sim n) = some mx) :
    q_learning_update sim s a r n =
      some { sim with qTable := (aset (initRows sim s n) (get_state_key sim s)
        (aset row a (old + LEARNING_RATE * (r + GAMMA * mx - old)))) } ∧
    qlookup (aset (initRows sim s n) (get_state_key sim s)
        (aset row a (old + LEARNING_RATE * (r + GAMMA * mx - old))))
      (get_state_key sim s) a = some (old + LEARNING_RATE * (r + GAMMA * mx - old)) ∧
    (∀ k b, ¬ (k = get_state_key sim s ∧ b = a) →
      qlookup (aset (initRows sim s n) (get_state_key sim s)
          (aset row a (old + LEARNING_RATE * (r + GAMMA * mx - old)))) k b =
        qlookup (initRows sim s n) k b) ∧
    (∀ k, alookup sim.qTable k = none →
      (k = get_state_key sim s ∨ k = get_state_key sim n) →
      alookup (initRows sim s n) k = some zeroRow) ∧
    (∀ k, k ≠ get_state_key sim s → k ≠ get_state_key sim n →
      alookup (initRows sim s n) k = alookup sim.qTable k) := by
  refine ⟨?_, ?_, ?_, ?_, ?_⟩
  · simp only [q_learning_update, hrow, hold, hmx]
  · unfold qlookup
    rw [alookup_aset_self, Option.some_bind, alookup_aset_self]
  · intro k b hkb
    unfold qlookup
    by_cases hk : k = get_state_key sim s
    · subst hk
      have hb : b ≠ a := fun hb => hkb ⟨rfl, hb⟩
      rw [alookup_aset_self, Option.some_bind, alookup_aset_ne _ _ _ _ hb, hrow,
        Option.some_bind]
    · rw [alookup_aset_ne _ _ _ _ hk]
  · intro k hk hkor
    unfold initRows
    rcases hkor with hks | hkn
    · subst hks
      exact alookup_initRow_preserve _ _ _ _ (alookup_initRow_none _ _ hk)
    · subst hkn
      by_cases he : get_state_key sim n = get_state_key sim s
      · have hk' : alookup sim.qTable (get_state_key sim s) = none := by
          rw [← he]
          exact hk
        have h1 := alookup_initRow_none sim.qTable (get_state_key sim s) hk'
        rw [he]
        exact alookup_initRow_preserve _ _ _ _ h1
      · have h2 : alookup (initRow sim.qTable (get_state_key sim s)) (get_state_key sim n) =
            none := by
          rw [alookup_initRow_ne _ _ _ he]
          exact hk
        exact alookup_initRow_none _ _ h2
  · intro k hks hkn
    unfold initRows
    rw [alookup_initRow_ne _ _ _ hkn, alookup_initRow_ne _ _ _ hks]

/-- C8 (witness): one update on the empty table, with state = next state
= origin, action (0,1) and reward 1. -/
theorem C8_q_update_witness :
    q_learning_update simEmpty (0, 0) (0, 1) 1 (0, 0) =
      some { simEmpty with qTable := (aset (initRows simEmpty (0, 0) (0, 0))
        (get_state_key simEmpty (0, 0))
        (aset zeroRow (0, 1) (0 + LEARNING_RATE * (1 + GAMMA * 0 - 0)))) } ∧
    qlookup (aset (initRows simEmpty (0, 0) (0, 0)) (get_state_key simEmpty (0, 0))
        (aset zeroRow (0, 1) (0 + LEARNING_RATE * (1 + GAMMA * 0 - 0))))
      (get_state_key simEmpty (0, 0)) (0, 1) =
      some (0 + LEARNING_RATE * (1 + GAMMA * 0 - 0)) ∧
    (∀ k b, ¬ (k = get_state_key simEmpty (0, 0) ∧ b = (0, 1)) →
      qlookup (aset (initRows simEmpty (0, 0) (0, 0)) (get_state_key simEmpty (0, 0))
          (aset zeroRow (0, 1) (0 + LEARNING_RATE * (1 + GAMMA * 0 - 0)))) k b =
        qlookup (initRows simEmpty (0, 0) (0, 0)) k b) ∧
    (∀ k, alookup simEmpty.qTable k = none →
      (k = get_state_key simEmpty (0, 0) ∨ k = get_state_key simEmpty (0, 0)) →
      alookup (initRows simEmpty (0, 0) (0, 0)) k = some zeroRow) ∧
    (∀ k, k ≠ get_state_key simEmpty (0, 0) → k ≠ get_state_key simEmpty (0, 0) →
      alookup (initRows simEmpty (0, 0) (0, 0)) k = alookup simEmpty.qTable k) :=
  C8_q_update simEmpty (0, 0) (0, 1) 1 (0, 0) zeroRow 0 0 rfl rfl rfl

/-- C9 (counterexample): staying on an unoccupied food tile inserts the
default agent and then immediately feeds it in the same call, so the
entry visible afterwards is `⟨15, 0⟩`, not the default `⟨10, 0⟩`. -/
theorem C9_counterexample :
    alookup (step simE (0, 0) (0, 0)).2.states (0, 0) = some ⟨15, 0⟩ ∧
    (Agent.mk 15 0) ≠ (Agent.mk 10 0) := by decide

/-- C9 (amended): when the clamped next position `P` is unoccupied,
`step` inserts the default `⟨10, 0⟩` agent at `P`; it is still `⟨10, 0⟩`
after the call whenever `P ≠ S`, while for `P = S` the same call applies
any food/money consumption at `P` to the freshly inserted agent. -/
theorem C9_default_insert (sim : Sim) (s : Pos) (a : Act)
    (h : alookup sim.states (clampNext sim s a) = none) :
    alookup (step sim s a).2.states (clampNext sim s a) =
      some (if clampNext sim s a = s
        then Agent.mk (10 + if clampNext sim s a ∈ sim.foods then 5 else 0)
          (if clampNext sim s a ∈ sim.moneyTiles then 1 else 0)
        else Agent.mk 10 0) := by
  unfold step
  rw [if_pos h]
  by_cases he : clampNext sim s a = s
  · rw [if_pos he]
    have h1 : alookup (aset sim.states (clampNext sim s a) ⟨10, 0⟩) s =
        some ⟨10, 0⟩ := by
      rw [he]
      exact alookup_aset_self sim.states s ⟨10, 0⟩
    have h2 := stepFood_at
      { sim with states := aset sim.states (clampNext sim s a) ⟨10, 0⟩ }
      s a (clampNext sim s a) ⟨10, 0⟩ h1
    simp only at h2
    rw [he] at h2 ⊢
    rw [h2]
    simp
  · rw [if_neg he]
    have hne : clampNext sim s a ≠ s := he
    rw [stepFood_frame _ s a _ _ hne]
    simp only
    exact alookup_aset_self sim.states (clampNext sim s a) ⟨10, 0⟩

/-- C9 (witness): the amended statement evaluated on `simF`, where the
agent steps toward the unoccupied `(0, 1)`. -/
theorem C9_default_insert_witness :
    alookup (step simF (0, 0) (0, 1)).2.states (clampNext simF (0, 0) (0, 1)) =
      some (if clampNext simF (0, 0) (0, 1) = (0, 0)
        then Agent.mk (10 + if clampNext simF (0, 0) (0, 1) ∈ simF.foods then 5 else 0)
          (if clampNext simF (0, 0) (0, 1) ∈ simF.moneyTiles then 1 else 0)
        else Agent.mk 10 0) :=
  C9_default_insert simF (0, 0) (0, 1) (by decide)

/-- C10 (counterexample): with the acting position absent from the store
and food at the clamped target, the `KeyError` is raised by the
food-consumption update `self.states[state]['health'] += 5`, not by the
reward computation. -/
theorem C10_counterexample :
    (step simF (0, 0) (0, 1)).1 = Except.error Err.keyErrFood ∧
    Err.keyErrFood ≠ Err.keyErrReward := by decide

/-- C10 (amended): `step` raises no exception when the acting position is
a key of the store, nor when the clamped position equals the acting
position (the default insert makes it a key); otherwise it raises a
`KeyError` — at the food update if the clamped position holds food, else
at the money update if it holds a money tile, else when the reward
computation reads the acting agent. -/
theorem C10_step_err (sim : Sim) (s : Pos) (a : Act) :
    resultErr (step sim s a).1 =
      if (alookup sim.states s).isSome = true ∨ clampNext sim s a = s then none
      else some (if clampNext sim s a ∈ sim.foods then Err.keyErrFood
        else if clampNext sim s a ∈ sim.moneyTiles then Err.keyErrMoney
        else Err.keyErrReward) := by
  unfold step
  cases hs : alookup sim.states s with
  | some ag =>
    have hok : ∀ sim₁ : Sim, alookup sim₁.states s = some ag →
        resultErr (stepFood sim₁ s a (clampNext sim s a)).1 = none := by
      intro sim₁ h₁
      rw [stepFood_err]
      rw [h₁]
    have hcond : (some ag).isSome = true ∨ clampNext sim s a = s := Or.inl rfl
    by_cases hn : alookup sim.states (clampNext sim s a) = none
    · rw [if_pos hn]
      have hne : s ≠ clampNext sim s a := by
        intro he
        rw [← he, hs] at hn
        cases hn
      have h₁ : alookup (aset sim.states (clampNext sim s a) ⟨10, 0⟩) s = some ag := by
        rw [alookup_aset_ne _ _ _ _ hne]
        exact hs
      rw [hok _ h₁, if_pos hcond]
    · rw [if_neg hn, hok _ hs, if_pos hcond]
  | none =>
    by_cases he : clampNext sim s a = s
    · rw [he]
      rw [if_pos hs]
      have h₁ : alookup (aset sim.states s (Agent.mk 10 0)) s = some ⟨10, 0⟩ :=
        alookup_aset_self sim.states s ⟨10, 0⟩
      rw [stepFood_err]
      simp only [h₁]
      simp
    · have hcond : ¬ (((none : Option Agent).isSome = true) ∨ clampNext sim s a = s) := by
        intro hor
        rcases hor with h2 | h2
        · simp at h2
        · exact he h2
      rw [if_neg hcond]
      by_cases hn : alookup sim.states (clampNext sim s a) = none
      · rw [if_pos hn]
        have h₁ : alookup (aset sim.states (clampNext sim s a) (Agent.mk 10 0)) s = none := by
          rw [alookup_aset_ne _ _ _ _ (fun hse => he hse.symm)]
          exact hs
        rw [stepFood_err]
        simp only [h₁]
      · rw [if_neg hn, stepFood_err]
        simp only [hs]

end MDPSim
